import Mathlib

/-!
Verification of the nutrition-agent repository (FastAPI service in `main.py`,
LangGraph agent loop in `app/agent/workflow.py`, web search tool in
`app/tools/websearch.py`, vision tool in `app/tools/meals_detect.py`).

The Python source is shallowly embedded: each Lean definition mirrors one
source function or data shape.  External effects (the OpenAI model call, the
Tavily search call, the filesystem) are passed in as explicit parameters or
outcome values, so every definition is executable.
-/

namespace NutritionAgent

/-- A structured tool-invocation request carried on an assistant message
(`tool_calls` on a LangChain `AIMessage`): tool name plus arguments. -/
structure ToolCall where
  name : String
  args : String
deriving Repr, DecidableEq

/-- One conversation message (LangChain `BaseMessage`): a unique id (the
LangGraph runtime assigns a fresh uuid to any message that lacks one, so in
the embedding every message carries an id), a role, textual content, and the
list of tool-invocation requests (empty for human/tool messages). -/
structure Message where
  id : Nat
  role : String
  content : String
  tool_calls : List ToolCall
deriving Repr, DecidableEq

/-- Index of the last element of `l` whose `id` equals `i`, if any.  This is
the lookup performed by the id-index dictionary that `add_messages` builds
over its left argument (a Python dict comprehension keeps the last index for
a duplicated id). -/
def lastIndexOfId : List Message → Nat → Option Nat
  | [], _ => none
  | m :: rest, i =>
    match lastIndexOfId rest i with
    | some j => some (j + 1)
    | none => if m.id = i then some 0 else none

/-- One step of the `add_messages` merge: a right-hand message whose id
occurs in the original left list overwrites the entry at that index,
otherwise it is appended. -/
def mergeOne (left merged : List Message) (m : Message) : List Message :=
  match lastIndexOfId left m.id with
  | some j => merged.set j m
  | none => merged ++ [m]

/-- The LangGraph `add_messages` reducer used by `AgentState.messages`
(`workflow.py` line 22): fold the right-hand messages into the left-hand
history, replacing by id when the id is already present and appending
otherwise.  (`RemoveMessage` handling is not modelled; the repository never
produces one.) -/
def add_messages (left right : List Message) : List Message :=
  right.foldl (mergeOne left) left

theorem lastIndexOfId_eq_none_iff (l : List Message) (i : Nat) :
    lastIndexOfId l i = none ↔ ∀ x ∈ l, x.id ≠ i := by
  induction l with
  | nil => simp [lastIndexOfId]
  | cons m rest ih =>
    constructor
    · intro hc
      simp only [lastIndexOfId] at hc
      cases h : lastIndexOfId rest i with
      | some j => rw [h] at hc; simp at hc
      | none =>
        rw [h] at hc
        by_cases hid : m.id = i
        · simp [hid] at hc
        · intro x hx
          rcases List.mem_cons.mp hx with rfl | hx
          · exact hid
          · exact (ih.mp h) x hx
    · intro hall
      have hrest : lastIndexOfId rest i = none :=
        ih.mpr (fun x hx => hall x (List.mem_cons_of_mem m hx))
      have hm : ¬ m.id = i := hall m (List.mem_cons_self m rest)
      simp [lastIndexOfId, hrest, hm]

theorem lastIndexOfId_isSome_of_mem {l : List Message} {m : Message}
    (hm : m ∈ l) : (lastIndexOfId l m.id).isSome := by
  cases h : lastIndexOfId l m.id with
  | some j => rfl
  | none =>
    exact absurd rfl ((lastIndexOfId_eq_none_iff l m.id).mp h m hm)

theorem lastIndexOfId_spec {l : List Message} {i j : Nat}
    (h : lastIndexOfId l i = some j) :
    ∃ x, l.get? j = some x ∧ x.id = i := by
  induction l generalizing j with
  | nil => simp [lastIndexOfId] at h
  | cons m rest ih =>
    simp only [lastIndexOfId] at h
    cases hr : lastIndexOfId rest i with
    | some j0 =>
      rw [hr] at h
      obtain rfl : j0 + 1 = j := by simpa using h
      obtain ⟨x, hx1, hx2⟩ := ih hr
      exact ⟨x, by simpa using hx1, hx2⟩
    | none =>
      rw [hr] at h
      by_cases hid : m.id = i
      · simp only [hid, if_pos rfl] at h
        obtain rfl : (0 : Nat) = j := by simpa using h
        exact ⟨m, rfl, hid⟩
      · simp [hid] at h

theorem lastIndexOfId_append (l r : List Message) (i : Nat) :
    lastIndexOfId (l ++ r) i =
      match lastIndexOfId r i with
      | some j => some (l.length + j)
      | none => lastIndexOfId l i := by
  induction l with
  | nil => cases h : lastIndexOfId r i <;> simp [h, lastIndexOfId]
  | cons m rest ih =>
    cases h : lastIndexOfId r i with
    | some j =>
      have h1 : lastIndexOfId (rest ++ r) i = some (rest.length + j) := by
        rw [ih, h]
      show lastIndexOfId ((m :: rest) ++ r) i = some ((m :: rest).length + j)
      simp only [List.cons_append, lastIndexOfId, List.append_eq, h1,
        List.length_cons]
      congr 1
      omega
    | none =>
      have h1 : lastIndexOfId (rest ++ r) i = lastIndexOfId rest i := by
        rw [ih, h]
      show lastIndexOfId ((m :: rest) ++ r) i = lastIndexOfId (m :: rest) i
      simp only [List.cons_append, lastIndexOfId, List.append_eq, h1]

theorem list_set_get?_self {α : Type} : ∀ (l : List α) (j : Nat) (a : α),
    l.get? j = some a → l.set j a = l := by
  intro l
  induction l with
  | nil => intro j a h; simp at h
  | cons x xs ih =>
    intro j a h
    cases j with
    | zero =>
      obtain rfl : x = a := by simpa using h
      rfl
    | succ j0 =>
      simp only [List.get?] at h
      simp [List.set, ih j0 a h]

theorem foldl_mergeOne_fresh {left : List Message} {r : List Message}
    (h : ∀ m ∈ r, lastIndexOfId left m.id = none) :
    ∀ acc, List.foldl (mergeOne left) acc r = acc ++ r := by
  induction r with
  | nil => intro acc; simp
  | cons m rest ih =>
    intro acc
    have hm : lastIndexOfId left m.id = none := h m (List.mem_cons_self m rest)
    have hrest : ∀ x ∈ rest, lastIndexOfId left x.id = none :=
      fun x hx => h x (List.mem_cons_of_mem m hx)
    simp only [List.foldl_cons, mergeOne, hm]
    rw [ih hrest (acc ++ [m])]
    simp

theorem foldl_mergeOne_id {left start : List Message} {r : List Message}
    (h : ∀ m ∈ r, ∃ j, lastIndexOfId left m.id = some j ∧ start.get? j = some m) :
    List.foldl (mergeOne left) start r = start := by
  induction r with
  | nil => rfl
  | cons m rest ih =>
    obtain ⟨j, hj, hg⟩ := h m (List.mem_cons_self m rest)
    have hstep : mergeOne left start m = start := by
      simp only [mergeOne, hj]
      exact list_set_get?_self start j m hg
    simp only [List.foldl_cons, hstep]
    exact ih (fun x hx => h x (List.mem_cons_of_mem m hx))

theorem nodup_lastIndex_self {l : List Message}
    (hl : (l.map Message.id).Nodup) :
    ∀ m ∈ l, ∃ j, lastIndexOfId l m.id = some j ∧ l.get? j = some m := by
  intro m hm
  cases h : lastIndexOfId l m.id with
  | none =>
    exact absurd rfl ((lastIndexOfId_eq_none_iff l m.id).mp h m hm)
  | some j =>
    obtain ⟨x, hx1, hx2⟩ := lastIndexOfId_spec h
    have hxl : x ∈ l := List.get?_mem hx1
    have hinj := List.inj_on_of_nodup_map hl
    have hxm : x = m := hinj hxl hm hx2
    exact ⟨j, rfl, by rw [← hxm]; exact hx1⟩

/-- Appending messages whose ids are fresh is a plain concatenation: the
prior history is preserved unchanged as a prefix, in order, and the new
messages follow in order. -/
theorem add_messages_of_fresh {l r : List Message}
    (h : ∀ m ∈ r, ∀ x ∈ l, x.id ≠ m.id) :
    add_messages l r = l ++ r := by
  unfold add_messages
  exact foldl_mergeOne_fresh
    (fun m hm => (lastIndexOfId_eq_none_iff l m.id).mpr (h m hm)) l

/-- Replaying a batch with distinct ids on top of a history that already
ends with it leaves the history unchanged: each message overwrites itself
in place. -/
theorem add_messages_replay {l r : List Message}
    (hnd : (r.map Message.id).Nodup) :
    add_messages (l ++ r) r = l ++ r := by
  unfold add_messages
  apply foldl_mergeOne_id
  intro m hm
  obtain ⟨j, hj, hg⟩ := nodup_lastIndex_self hnd m hm
  refine ⟨l.length + j, ?_, ?_⟩
  · rw [lastIndexOfId_append]
    simp [hj]
  · rw [List.get?_append_right (Nat.le_add_right _ _)]
    simpa using hg

/-- State carried by the agent graph (`workflow.py` `AgentState`): the
message history.  The single field is inlined as a `List Message`. -/
abbrev AgentState := List Message

/-- The `agent` node (`workflow.py` `llm_call`): invoke the bound model on
the system prompt plus the current history and return the history with the
response appended — this is the update dict the node hands to the
`add_messages` reducer.  The `model` parameter abstracts
`llm_with_tool.invoke` applied after prepending the fixed system prompt. -/
def llm_call (model : List Message → Message) (messages : AgentState) :
    List Message :=
  messages ++ [model messages]

/-- The routing function (`workflow.py` `decision_node`): look at the last
message of the state; if it carries tool calls route `"continue"` (to the
tool node), otherwise `"end"`.  The empty-history case cannot be reached in
the graph (the agent node has just appended its response; Python would raise
`IndexError` there). -/
def decision_node (messages : AgentState) : String :=
  match messages.getLast? with
  | some last_message =>
    if !last_message.tool_calls.isEmpty then "continue" else "end"
  | none => "end"

/-- The `tool` node (LangGraph's prebuilt `ToolNode` over `get_tools`):
execute each tool call carried by the last message, in the order the model
listed them, and return one tool-result message per call.  `toolExec`
abstracts resolving and invoking one tool. -/
def tool_node (toolExec : ToolCall → Message) (messages : AgentState) :
    List Message :=
  match messages.getLast? with
  | some last_message => last_message.tool_calls.map toolExec
  | none => []

/-- Outcome of running the compiled graph: a final state, or the
`GraphRecursionError` the LangGraph runtime raises when the configured
recursion limit is exhausted while the model keeps requesting tools. -/
inductive RunResult where
  | done (messages : List Message)
  | recursionLimit
deriving Repr, DecidableEq

/-- One invocation of the compiled workflow (`build_workflow().stream`):
START goes to the agent node; the conditional edge routes `"continue"` to
the tool node (whose results feed back into the agent node) and `"end"` to
END.  Each node's returned update is folded into the state by the
`add_messages` reducer.  The runtime's configured recursion limit is
modelled by `fuel`, counting loop iterations; exhausting it yields
`RunResult.recursionLimit` instead of looping forever. -/
def run_workflow (model : List Message → Message)
    (toolExec : ToolCall → Message) : Nat → AgentState → RunResult
  | 0, _ => .recursionLimit
  | Nat.succ fuel, messages =>
    let merged := add_messages messages (llm_call model messages)
    if decision_node merged = "continue" then
      run_workflow model toolExec fuel
        (add_messages merged (tool_node toolExec merged))
    else .done merged

/-- Number of model-gateway calls performed by `run_workflow` with the given
fuel, starting from the given state. -/
def model_call_count (model : List Message → Message)
    (toolExec : ToolCall → Message) : Nat → AgentState → Nat
  | 0, _ => 0
  | Nat.succ fuel, messages =>
    let merged := add_messages messages (llm_call model messages)
    if decision_node merged = "continue" then
      Nat.succ (model_call_count model toolExec fuel
        (add_messages merged (tool_node toolExec merged)))
    else 1

/-- The turn's output as read off by the chat endpoint (`main.py` lines
106-109): the content of the last message of the final state. -/
def turn_output (messages : List Message) : String :=
  match messages.getLast? with
  | some m => m.content
  | none => ""

theorem add_messages_self_concat (l : List Message) (r0 : Message)
    (hf : ∀ x ∈ l, x.id ≠ r0.id) :
    add_messages l (l ++ [r0]) = (List.foldl (mergeOne l) l l) ++ [r0] := by
  unfold add_messages
  rw [List.foldl_append]
  simp only [List.foldl_cons, List.foldl_nil]
  have : lastIndexOfId l r0.id = none :=
    (lastIndexOfId_eq_none_iff l r0.id).mpr hf
  simp [mergeOne, this]

theorem add_messages_step_nodup (l : List Message) (r0 : Message)
    (hl : (l.map Message.id).Nodup) (hf : ∀ x ∈ l, x.id ≠ r0.id) :
    add_messages l (l ++ [r0]) = l ++ [r0] := by
  rw [add_messages_self_concat l r0 hf]
  rw [foldl_mergeOne_id (nodup_lastIndex_self hl)]

theorem decision_node_concat (X : List Message) (r0 : Message) :
    decision_node (X ++ [r0]) =
      if !r0.tool_calls.isEmpty then "continue" else "end" := by
  simp [decision_node, List.getLast?_concat]

theorem turn_output_concat (X : List Message) (r0 : Message) :
    turn_output (X ++ [r0]) = r0.content := by
  simp [turn_output, List.getLast?_concat]

/-- C1: for every session history and every model stub — including one that
returns a tool-requesting answer on every call — a single invocation of the
compiled turn-controller loop performs at most `cap` model calls, and with a
perpetually tool-requesting stub it stops with the recursion-limit error
rather than looping indefinitely.  (The stub is assumed to mint fresh
message ids, as the LangGraph runtime does with uuids.) -/
theorem turn_controller_terminates_within_cap
    (model : List Message → Message) (toolExec : ToolCall → Message)
    (cap : Nat) (init : AgentState) :
    model_call_count model toolExec cap init ≤ cap ∧
    ((∀ ms, (model ms).tool_calls ≠ [] ∧ ∀ x ∈ ms, x.id ≠ (model ms).id) →
      run_workflow model toolExec cap init = RunResult.recursionLimit) := by
  constructor
  · induction cap generalizing init with
    | zero => simp [model_call_count]
    | succ fuel ih =>
      simp only [model_call_count]
      split
      · exact Nat.succ_le_succ (ih _)
      · omega
  · intro halways
    induction cap generalizing init with
    | zero => rfl
    | succ fuel ih =>
      have hconcat := add_messages_self_concat init (model init)
        (fun x hx => (halways init).2 x hx)
      have hisEmpty : (model init).tool_calls.isEmpty = false := by
        cases hcalls : (model init).tool_calls with
        | nil => exact absurd hcalls (halways init).1
        | cons a as => rfl
      have hdec :
          decision_node ((List.foldl (mergeOne init) init init) ++
            [model init]) = "continue" := by
        rw [decision_node_concat, hisEmpty]
        rfl
      simp only [run_workflow, llm_call]
      rw [hconcat, hdec]
      rw [if_pos rfl]
      exact ih _

/-- Closed witness for C1: a stub that always requests one web-search tool
call (with a fresh id) exhausts a cap of 3 and stops with the
recursion-limit error, and makes at most 3 model calls. -/
theorem turn_controller_terminates_within_cap_witness :
    model_call_count
      (fun ms => ⟨(ms.map Message.id).sum + 1, "assistant", "",
        [⟨"web_search_nutrition", "protein rda"⟩]⟩)
      (fun _ => ⟨0, "tool", "searched", []⟩) 3 [] ≤ 3 ∧
    run_workflow
      (fun ms => ⟨(ms.map Message.id).sum + 1, "assistant", "",
        [⟨"web_search_nutrition", "protein rda"⟩]⟩)
      (fun _ => ⟨0, "tool", "searched", []⟩) 3 [] =
      RunResult.recursionLimit := by
  have h := turn_controller_terminates_within_cap
    (fun ms => ⟨(ms.map Message.id).sum + 1, "assistant", "",
      [⟨"web_search_nutrition", "protein rda"⟩]⟩)
    (fun _ => ⟨0, "tool", "searched", []⟩) 3 []
  refine ⟨h.1, h.2 ?_⟩
  intro ms
  refine ⟨by simp, ?_⟩
  intro x hx
  have hle : x.id ≤ (ms.map Message.id).sum :=
    List.single_le_sum (fun b _ => Nat.zero_le b) _
      (List.mem_map_of_mem Message.id hx)
  simp only []
  omega

/-- C2: after each model call the controller routes on the answer message.
If the answer carries no tool calls the turn ends in `done` and the turn's
output is the content of that last appended message; if it carries one or
more, the controller runs the tool node on it and loops back to the model
node (one more loop iteration of `run_workflow`).  Hypotheses: the current
history has distinct message ids and the model response id is fresh, as the
runtime's uuid assignment guarantees. -/
theorem decision_routes_on_answer
    (model : List Message → Message) (toolExec : ToolCall → Message)
    (fuel : Nat) (l : AgentState)
    (hnd : (l.map Message.id).Nodup)
    (hf : ∀ x ∈ l, x.id ≠ (model l).id) :
    ((model l).tool_calls = [] →
      run_workflow model toolExec (fuel + 1) l =
        RunResult.done (l ++ [model l]) ∧
      turn_output (l ++ [model l]) = (model l).content) ∧
    ((model l).tool_calls ≠ [] →
      run_workflow model toolExec (fuel + 1) l =
        run_workflow model toolExec fuel
          (add_messages (l ++ [model l])
            (tool_node toolExec (l ++ [model l])))) := by
  have hmerged : add_messages l (llm_call model l) = l ++ [model l] := by
    simp only [llm_call]
    exact add_messages_step_nodup l (model l) hnd hf
  constructor
  · intro hempty
    have hdec : decision_node (l ++ [model l]) = "end" := by
      rw [decision_node_concat, hempty]
      rfl
    constructor
    · simp only [run_workflow]
      rw [hmerged, hdec]
      rw [if_neg (by decide)]
    · exact turn_output_concat l (model l)
  · intro hne
    have hisEmpty : (model l).tool_calls.isEmpty = false := by
      cases hcalls : (model l).tool_calls with
      | nil => exact absurd hcalls hne
      | cons a as => rfl
    have hdec : decision_node (l ++ [model l]) = "continue" := by
      rw [decision_node_concat, hisEmpty]
      rfl
    simp only [run_workflow]
    rw [hmerged, hdec]
    rw [if_pos rfl]

/-- Closed witness for C2: a stub returning a final answer on history
`[user "hi"]` ends the turn at once and the output is the answer's
content. -/
theorem decision_routes_on_answer_witness :
    run_workflow (fun _ => ⟨1, "assistant", "All set", []⟩)
      (fun _ => ⟨2, "tool", "", []⟩) 1 [⟨0, "user", "hi", []⟩] =
      RunResult.done
        [⟨0, "user", "hi", []⟩, ⟨1, "assistant", "All set", []⟩] ∧
    turn_output [⟨0, "user", "hi", []⟩, ⟨1, "assistant", "All set", []⟩] =
      "All set" := by
  have h := (decision_routes_on_answer
    (fun _ => ⟨1, "assistant", "All set", []⟩)
    (fun _ => ⟨2, "tool", "", []⟩) 0 [⟨0, "user", "hi", []⟩]
    (by decide) (by decide)).1 rfl
  exact ⟨h.1, h.2⟩

/-- One role-tagged history entry of the HTTP chat request (`main.py`
`ChatMessage`). -/
structure ChatMessage where
  role : String
  content : String
deriving Repr, DecidableEq

/-- The chat request body (`main.py` `ChatRequest`, lines 39-42): an
optional single message, an optional list of messages, and an optional
role-tagged history.  These are its only fields. -/
structure ChatRequest where
  message : Option String
  messages : Option (List String)
  history : Option (List ChatMessage)
deriving Repr, DecidableEq

/-- Python truthiness of an optional string (`None` and `""` are falsy). -/
def str_truthy : Option String → Bool
  | none => false
  | some s => s != ""

/-- Python truthiness of an optional list (`None` and `[]` are falsy). -/
def list_truthy : Option (List String) → Bool
  | none => false
  | some l => !l.isEmpty

/-- The `ensure_message` model validator (`main.py` lines 44-49): reject
when both `message` and `messages` are falsy, otherwise accept the request
unchanged. -/
def ensure_message (req : ChatRequest) : Except String ChatRequest :=
  if !str_truthy req.message && !list_truthy req.messages then
    Except.error "Either \x27message\x27 or \x27messages\x27 must be provided."
  else Except.ok req

/-- The `get_user_id` helper (`main.py` lines 68-74): `"user_"` plus the
first eight hex digits of the md5 of `"username@machine"`; the hash value is
abstracted as a parameter since it depends only on the host, never on any
request. -/
def get_user_id (user_hash : String) : String := "user_" ++ user_hash

/-- The thread id the chat endpoint passes to the workflow (`main.py` line
87): the f-string `get_user_id()` followed by `"_api_session"`.  The request
is not consulted, so the parameter `_req` is unused — exactly the point at
issue in claim C3. -/
def chat_thread_id (user_hash : String) (_req : ChatRequest) : String :=
  get_user_id user_hash ++ "_api_session"

/-- The session store keyed by thread id (the `MemorySaver` checkpointer of
`workflow.py`): appending a turn's messages under key `k` merges them into
the history stored under `k` with the `add_messages` reducer and leaves
every other key untouched. -/
def session_append (store : String → List Message) (k : String)
    (ms : List Message) : String → List Message :=
  fun k0 => if k0 = k then add_messages (store k0) ms else store k0

/-- Counterexample for C3: two different chat requests are assigned the very
same thread id — the session key is host-derived, not carried by the
request (`ChatRequest` has no session-key field at all). -/
theorem chat_requests_share_one_thread_counterexample :
    chat_thread_id "0a1b2c3d" ⟨some "hello", none, none⟩ =
      chat_thread_id "0a1b2c3d" ⟨some "different text", none, none⟩ ∧
    (⟨some "hello", none, none⟩ : ChatRequest) ≠
      ⟨some "different text", none, none⟩ := by
  exact ⟨rfl, by decide⟩

/-- C3 (amended): chat requests carry no session key; the server derives
one fixed thread id from host identity, the same for every request, so all
chat requests on one server resume the same history.  In the session store
itself, histories under distinct keys are independent: appending under one
key leaves every other key's history unchanged. -/
theorem session_key_host_fixed_and_stores_independent
    (user_hash : String) (r1 r2 : ChatRequest)
    (store : String → List Message) (k k1 : String) (ms : List Message)
    (hkk : k ≠ k1) :
    chat_thread_id user_hash r1 = chat_thread_id user_hash r2 ∧
    session_append store k ms k1 = store k1 := by
  refine ⟨rfl, ?_⟩
  unfold session_append
  rw [if_neg (Ne.symm hkk)]

/-- Closed witness for C3 (amended): two concrete requests share the thread
id, and an append under key "a" leaves key "b" empty. -/
theorem session_key_host_fixed_witness :
    chat_thread_id "deadbeef" ⟨some "hi", none, none⟩ =
      chat_thread_id "deadbeef" ⟨none, some ["x"], none⟩ ∧
    session_append (fun _ => []) "a" [⟨0, "user", "hi", []⟩] "b" = [] := by
  exact session_key_host_fixed_and_stores_independent "deadbeef"
    ⟨some "hi", none, none⟩ ⟨none, some ["x"], none⟩
    (fun _ => []) "a" "b" [⟨0, "user", "hi", []⟩] (by decide)

/-- C6: request validation succeeds whenever `message` is a non-empty
string or `messages` is a non-empty list — in particular when `message` is
present and `messages` is the empty list — and fails with the
invalid-request error when neither field is supplied. -/
theorem chat_request_validation (req : ChatRequest) :
    ((∃ s, req.message = some s ∧ s ≠ "") ∨
        (∃ l, req.messages = some l ∧ l ≠ []) →
      ensure_message req = Except.ok req) ∧
    (req.message = none ∧ req.messages = none →
      ensure_message req =
        Except.error "Either \x27message\x27 or \x27messages\x27 must be provided.") := by
  constructor
  · intro h
    unfold ensure_message
    rcases h with ⟨s, hs, hne⟩ | ⟨l, hl, hne⟩
    · have h1 : str_truthy req.message = true := by
        rw [hs]
        simp only [str_truthy, bne_iff_ne, ne_eq]
        exact hne
      rw [h1]
      simp
    · have h1 : list_truthy req.messages = true := by
        rw [hl]
        cases l with
        | nil => exact absurd rfl hne
        | cons a as => rfl
      rw [h1]
      simp
  · intro ⟨hm, hms⟩
    unfold ensure_message
    rw [hm, hms]
    simp [str_truthy, list_truthy]

/-- Closed witness for C6: `message = "hello"` with an empty `messages`
list passes validation; a request with neither fails. -/
theorem chat_request_validation_witness :
    ensure_message ⟨some "hello", some [], none⟩ =
      Except.ok ⟨some "hello", some [], none⟩ ∧
    ensure_message ⟨none, none, none⟩ =
      Except.error "Either \x27message\x27 or \x27messages\x27 must be provided." := by
  constructor
  · exact (chat_request_validation ⟨some "hello", some [], none⟩).1
      (Or.inl ⟨"hello", rfl, by decide⟩)
  · exact (chat_request_validation ⟨none, none, none⟩).2 ⟨rfl, rfl⟩

/-- The chat response body (`main.py` `ChatResponse`): role defaults to
`"assistant"`. -/
structure ChatResponse where
  role : String
  content : String
deriving Repr, DecidableEq

/-- What happened while the chat endpoint ran the workflow: a normal stream
of step values (each entry is the content of that step's last message, or
`none` when the value has no `content` attribute), or an exception — an
`ImportError` or any other `Exception`. -/
inductive ChatOutcome where
  | streamed (steps : List (Option String))
  | importError (e : String)
  | exn (e : String)
deriving Repr, DecidableEq

/-- Apology text returned when the stream produced no content
(`main.py` lines 111-115). -/
def fallback_content : String :=
  "I apologize, but I couldn\x27t generate a response. Please try rephrasing your question."

/-- The response-content accumulation loop of the chat endpoint (`main.py`
lines 105-115): start from `""`, overwrite with each step's last-message
content when it has one, and fall back to the apology text when the final
value is still empty. -/
def chat_response_content (steps : List (Option String)) : String :=
  let response_content := steps.foldl (fun acc c => c.getD acc) ""
  if response_content = "" then fallback_content else response_content

/-- The chat endpoint's try/except shape (`main.py` lines 83-122): a normal
stream is rendered through `chat_response_content`; an `ImportError` becomes
a "Configuration Error" text; any other exception becomes an "Error" text.
In every case a `ChatResponse` payload is produced. -/
def chat (outcome : ChatOutcome) : ChatResponse :=
  match outcome with
  | .streamed steps => ⟨"assistant", chat_response_content steps⟩
  | .importError e => ⟨"assistant", "**Configuration Error:** " ++ e⟩
  | .exn e => ⟨"assistant", "**Error:** " ++ e⟩

/-- C9: every validated chat request gets a response payload: the role is
always `"assistant"`, the content is never empty, and failures are rendered
as human-readable text — `ImportError` as a Configuration Error message and
any other exception as an Error message — rather than surfacing as a
protocol-level error. -/
theorem chat_always_returns_payload (outcome : ChatOutcome) :
    (chat outcome).role = "assistant" ∧
    (chat outcome).content ≠ "" ∧
    (∀ e, outcome = ChatOutcome.importError e →
      (chat outcome).content = "**Configuration Error:** " ++ e) ∧
    (∀ e, outcome = ChatOutcome.exn e →
      (chat outcome).content = "**Error:** " ++ e) := by
  cases outcome with
  | streamed steps =>
    refine ⟨rfl, ?_, fun e he => ChatOutcome.noConfusion he,
      fun e he => ChatOutcome.noConfusion he⟩
    show chat_response_content steps ≠ ""
    unfold chat_response_content
    by_cases h : steps.foldl (fun acc c => c.getD acc) "" = ""
    · rw [if_pos h]
      decide
    · rw [if_neg h]
      exact h
  | importError e0 =>
    refine ⟨rfl, ?_, ?_, fun e he => ChatOutcome.noConfusion he⟩
    · show "**Configuration Error:** " ++ e0 ≠ ""
      intro hc
      have hlen := congrArg String.length hc
      rw [String.length_append] at hlen
      have hpos : 0 < ("**Configuration Error:** " : String).length := by decide
      simp at hlen
      omega
    · intro e he
      injection he with h
      rw [h]
      rfl
  | exn e0 =>
    refine ⟨rfl, ?_, fun e he => ChatOutcome.noConfusion he, ?_⟩
    · show "**Error:** " ++ e0 ≠ ""
      intro hc
      have hlen := congrArg String.length hc
      rw [String.length_append] at hlen
      have hpos : 0 < ("**Error:** " : String).length := by decide
      simp at hlen
      omega
    · intro e he
      injection he with h
      rw [h]
      rfl

/-- Closed witness for C9: a model failure rendered as text in the payload,
and an empty stream rendered as the apology text. -/
theorem chat_always_returns_payload_witness :
    (chat (ChatOutcome.exn "model unavailable")).content =
      "**Error:** model unavailable" ∧
    (chat (ChatOutcome.streamed [])).role = "assistant" := by
  exact ⟨(chat_always_returns_payload (ChatOutcome.exn "model unavailable")).2.2.2
      "model unavailable" rfl,
    (chat_always_returns_payload (ChatOutcome.streamed [])).1⟩

/-- C4: session history is strictly append-only and ordered — folding a
batch of fresh-id messages into the stored history through the
`add_messages` reducer keeps the existing history unchanged as a prefix and
appends the batch in order — and replaying the same sequence of appends a
second time yields a stored history identical to appending it once.  The
hypotheses (fresh, pairwise-distinct ids) are what the runtime's uuid
assignment guarantees. -/
theorem history_append_only_and_replay_idempotent
    (l r : List Message)
    (hfresh : ∀ m ∈ r, ∀ x ∈ l, x.id ≠ m.id)
    (hnd : (r.map Message.id).Nodup) :
    add_messages l r = l ++ r ∧
    add_messages (add_messages l r) r = add_messages l r := by
  have h1 := add_messages_of_fresh hfresh
  refine ⟨h1, ?_⟩
  rw [h1, add_messages_replay hnd]

/-- Closed witness for C4: appending an assistant and a tool message to a
one-message history concatenates in order, and replaying the same batch
leaves the history unchanged. -/
theorem history_append_only_witness :
    add_messages [⟨0, "user", "hi", []⟩]
        [⟨1, "assistant", "yo", []⟩, ⟨2, "tool", "res", []⟩] =
      [⟨0, "user", "hi", []⟩, ⟨1, "assistant", "yo", []⟩,
        ⟨2, "tool", "res", []⟩] ∧
    add_messages
        (add_messages [⟨0, "user", "hi", []⟩]
          [⟨1, "assistant", "yo", []⟩, ⟨2, "tool", "res", []⟩])
        [⟨1, "assistant", "yo", []⟩, ⟨2, "tool", "res", []⟩] =
      add_messages [⟨0, "user", "hi", []⟩]
        [⟨1, "assistant", "yo", []⟩, ⟨2, "tool", "res", []⟩] := by
  have h := history_append_only_and_replay_idempotent
    [⟨0, "user", "hi", []⟩]
    [⟨1, "assistant", "yo", []⟩, ⟨2, "tool", "res", []⟩]
    (by decide) (by decide)
  exact ⟨h.1, h.2⟩

/-- One Tavily search hit as the source reads it (a dict accessed with
`.get`): optional title, url, content and relevance score.  Scores are kept
as strings; Python's truthiness test on the score field is modelled as
"present and non-empty". -/
structure SearchResult where
  title : Option String
  url : Option String
  content : Option String
  score : Option String
deriving Repr, DecidableEq

/-- What `tavily_tool.invoke` did: returned a list of results, or raised. -/
inductive SearchOutcome where
  | ok (results : List SearchResult)
  | exn (e : String)
deriving Repr, DecidableEq

/-- The result-formatting loop of `web_search_nutrition`
(`websearch.py` lines 47-55), with Python's 1-based `enumerate`. -/
def format_results : Nat → List SearchResult → String
  | _, [] => ""
  | idx, r :: rest =>
    toString idx ++ ". " ++ r.title.getD "No title" ++ "\n" ++
    "   URL: " ++ r.url.getD "No URL" ++ "\n" ++
    "   Content: " ++ r.content.getD "No content" ++ "\n" ++
    (match r.score with
     | some s => if s = "" then "" else "   Relevance Score: " ++ s ++ "\n"
     | none => "") ++
    "\n" ++ format_results (idx + 1) rest

/-- The `web_search_nutrition` tool (`websearch.py` lines 21-60): a total
function into `String`.  A raised exception is caught and converted to a
descriptive error string; a falsy (empty) result list yields the explicit
no-results string; otherwise the results are formatted under a header
naming the query. -/
def web_search_nutrition (query : String) (outcome : SearchOutcome) :
    String :=
  match outcome with
  | .exn e => "Error performing web search: " ++ e
  | .ok results =>
    if results.isEmpty then "No results found for the query."
    else "Search Results for: \x27" ++ query ++ "\x27\n\n" ++
      format_results 1 results

/-- C5: for every query the web-search tool returns a string and never
raises: a search failure of any kind becomes a descriptive error string, an
empty result set becomes the explicit no-results string, and a non-empty
result set becomes the formatted block of snippets (title, URL, content,
relevance score) headed by the query. -/
theorem web_search_never_raises (query : String) (outcome : SearchOutcome) :
    (∀ e, outcome = SearchOutcome.exn e →
      web_search_nutrition query outcome =
        "Error performing web search: " ++ e) ∧
    (outcome = SearchOutcome.ok [] →
      web_search_nutrition query outcome =
        "No results found for the query.") ∧
    (∀ r rs, outcome = SearchOutcome.ok (r :: rs) →
      web_search_nutrition query outcome =
        "Search Results for: \x27" ++ query ++ "\x27\n\n" ++
          format_results 1 (r :: rs)) := by
  refine ⟨?_, ?_, ?_⟩
  · intro e he
    rw [he]
    rfl
  · intro he
    rw [he]
    rfl
  · intro r rs he
    rw [he]
    rfl

/-- Closed witness for C5: each of the three outcome classes evaluated at a
concrete query. -/
theorem web_search_never_raises_witness :
    web_search_nutrition "vitamin c rda" (SearchOutcome.exn "timeout") =
      "Error performing web search: timeout" ∧
    web_search_nutrition "vitamin c rda" (SearchOutcome.ok []) =
      "No results found for the query." := by
  exact ⟨(web_search_never_raises "vitamin c rda"
      (SearchOutcome.exn "timeout")).1 "timeout" rfl,
    (web_search_never_raises "vitamin c rda"
      (SearchOutcome.ok [])).2.1 rfl⟩

/-- Result of calling `analyze_meal_image`: a successful analysis payload
(abstracted as its text) or, when the vision call raised, the dict carrying
the stringified exception (`main.py` line 203). -/
inductive AnalysisResponse where
  | ok (analysis : String)
  | error (msg : String)
deriving Repr, DecidableEq

/-- One record of `app/tools/meals.json`.  Pre-existing records are
arbitrary JSON objects read back with `.get`, so every field is optional;
records written by the upload endpoint set all of them. -/
structure MealRecord where
  id : Option Int
  name : Option String
  description : Option String
  image_path : Option String
  upload_date : Option String
  user_id : Option String
  analysis_response : Option AnalysisResponse
deriving Repr, DecidableEq

/-- Python `max(list, default=0)`: the maximum of the list's elements, or
the default only when the list is empty. -/
def python_max_default (l : List Int) (d : Int) : Int :=
  match l with
  | [] => d
  | x :: xs => xs.foldl max x

/-- The id assignment of the upload endpoint (`main.py` line 171):
`max([meal.get("id", 0) for meal in meals_data], default=0) + 1`. -/
def new_id (meals : List MealRecord) : Int :=
  python_max_default (meals.map (fun m => m.id.getD 0)) 0 + 1

theorem foldl_max_mem (x : Int) (xs : List Int) :
    xs.foldl max x ∈ x :: xs := by
  induction xs generalizing x with
  | nil => simp
  | cons y ys ih =>
    have h2 := ih (max x y)
    rcases List.mem_cons.mp h2 with heq | hmem
    · rw [List.foldl_cons, heq]
      rcases max_choice x y with h | h <;> rw [h]
      · exact List.mem_cons_self _ _
      · exact List.mem_cons_of_mem _ (List.mem_cons_self _ _)
    · exact List.mem_cons_of_mem _ (List.mem_cons_of_mem _ hmem)

theorem le_foldl_max (x : Int) (xs : List Int) :
    ∀ a ∈ x :: xs, a ≤ xs.foldl max x := by
  induction xs generalizing x with
  | nil =>
    intro a ha
    rcases List.mem_cons.mp ha with rfl | h
    · exact le_refl a
    · simp at h
  | cons y ys ih =>
    intro a ha
    rw [List.foldl_cons]
    rcases List.mem_cons.mp ha with rfl | h
    · exact le_trans (le_max_left a y) (ih (max a y) _ (List.mem_cons_self _ _))
    · rcases List.mem_cons.mp h with rfl | h2
      · exact le_trans (le_max_right x a) (ih (max x a) _ (List.mem_cons_self _ _))
      · exact ih (max x y) a (List.mem_cons_of_mem _ h2)

theorem python_max_default_perm {l l2 : List Int} (h : l.Perm l2) :
    python_max_default l 0 = python_max_default l2 0 := by
  cases l with
  | nil =>
    have : l2 = [] := h.symm.eq_nil
    rw [this]
  | cons x xs =>
    have hne : l2 ≠ [] := by
      intro h0
      rw [h0] at h
      exact List.cons_ne_nil x xs h.eq_nil
    obtain ⟨y, ys, rfl⟩ := List.exists_cons_of_ne_nil hne
    show xs.foldl max x = ys.foldl max y
    apply le_antisymm
    · exact le_foldl_max y ys _ (h.subset (foldl_max_mem x xs))
    · exact le_foldl_max x xs _ (h.symm.subset (foldl_max_mem y ys))

/-- C7: the id assigned to an upload is one plus the maximum id among the
existing records — where a record without an id counts as 0 and the maximum
of an empty store is 0 — and the assignment is invariant under any
reordering of the stored records. -/
theorem upload_id_is_max_plus_one (meals meals2 : List MealRecord)
    (hperm : meals.Perm meals2) :
    (meals = [] → new_id meals = 1) ∧
    (∀ m ∈ meals, m.id.getD 0 ≤ new_id meals - 1) ∧
    (meals ≠ [] → ∃ m ∈ meals, m.id.getD 0 = new_id meals - 1) ∧
    new_id meals = new_id meals2 := by
  refine ⟨?_, ?_, ?_, ?_⟩
  · intro h
    rw [h]
    rfl
  · intro m hm
    have hsub : new_id meals - 1 =
        python_max_default (meals.map (fun m => m.id.getD 0)) 0 := by
      unfold new_id
      omega
    rw [hsub]
    cases hml : meals.map (fun m => m.id.getD 0) with
    | nil =>
      exact absurd hml (by simp [List.map_eq_nil]; intro h0; rw [h0] at hm; simp at hm)
    | cons x xs =>
      have hmem : m.id.getD 0 ∈ x :: xs := by
        rw [← hml]
        exact List.mem_map_of_mem _ hm
      exact le_foldl_max x xs _ hmem
  · intro hne
    have hsub : new_id meals - 1 =
        python_max_default (meals.map (fun m => m.id.getD 0)) 0 := by
      unfold new_id
      omega
    cases hml : meals.map (fun m => m.id.getD 0) with
    | nil =>
      exact absurd (List.map_eq_nil.mp hml) hne
    | cons x xs =>
      have hmem : xs.foldl max x ∈ meals.map (fun m => m.id.getD 0) := by
        rw [hml]
        exact foldl_max_mem x xs
      obtain ⟨m, hm, hval⟩ := List.mem_map.mp hmem
      refine ⟨m, hm, ?_⟩
      rw [hsub]
      unfold python_max_default
      rw [hml]
      exact hval
  · unfold new_id
    rw [python_max_default_perm (hperm.map (fun m => m.id.getD 0))]

/-- Closed witness for C7: a store holding ids 3 and 1 in either order
assigns id 4. -/
theorem upload_id_is_max_plus_one_witness :
    new_id [⟨some 3, none, none, none, none, none, none⟩,
            ⟨some 1, none, none, none, none, none, none⟩] =
      new_id [⟨some 1, none, none, none, none, none, none⟩,
              ⟨some 3, none, none, none, none, none, none⟩] ∧
    new_id [⟨some 3, none, none, none, none, none, none⟩,
            ⟨some 1, none, none, none, none, none, none⟩] = 4 := by
  have h := upload_id_is_max_plus_one
    [⟨some 3, none, none, none, none, none, none⟩,
     ⟨some 1, none, none, none, none, none, none⟩]
    [⟨some 1, none, none, none, none, none, none⟩,
     ⟨some 3, none, none, none, none, none, none⟩]
    (by decide)
  exact ⟨h.2.2.2, by decide⟩

/-- Persistent state the upload endpoint touches: the records of
`app/tools/meals.json` and the files present in the `uploads/meals` content
directory. -/
structure MealStore where
  meals : List MealRecord
  files : List String
deriving Repr, DecidableEq

/-- Outcome of the upload endpoint: the success response (assigned id — as
surfaced in the detail text — plus detail and stored path) or a raised
`HTTPException` with status code and detail. -/
inductive UploadOutcome where
  | success (id : Int) (detail : String) (document_path : String)
  | httpError (status : Nat) (detail : String)
deriving Repr, DecidableEq

/-- The allowed upload extensions (`main.py` line 129). -/
def allowed_extensions : List String := [".png", ".jpg", ".jpeg"]

/-- ASCII lower-casing of one character, as Python `str.lower` acts on the
ASCII filenames involved here. -/
def char_lower (c : Char) : Char :=
  if 65 ≤ c.toNat ∧ c.toNat ≤ 90 then Char.ofNat (c.toNat + 32) else c

/-- Python `str.lower` restricted to ASCII. -/
def lower_string (s : String) : String :=
  String.mk (s.data.map char_lower)

/-- Python `str.endswith` on strings, via the character lists. -/
def string_ends_with (s suffix0 : String) : Bool :=
  List.isSuffixOf suffix0.data s.data

/-- The extension check of the upload endpoint (`main.py` line 130):
`file.filename.lower().endswith((".png", ".jpg", ".jpeg"))`. -/
def has_allowed_extension (filename : String) : Bool :=
  allowed_extensions.any (fun ext => string_ends_with (lower_string filename) ext)

/-- Suffix of a character list starting at its last dot, if any. -/
def splitext_ext_chars : List Char → Option (List Char)
  | [] => none
  | c :: rest =>
    match splitext_ext_chars rest with
    | some e => some e
    | none => if c = '.' then some (c :: rest) else none

/-- Extension part of `os.path.splitext(filename)[1]`: everything from the
last dot on, empty when there is no dot.  (The leading-dot special case of
`splitext` cannot trigger here, since every filename reaching this point
ends in an allowed extension.) -/
def splitext_ext (s : String) : String :=
  ((splitext_ext_chars s.data).getD []).asString

/-- The upload endpoint (`main.py` lines 126-228) as a state transition.
Effects are explicit parameters: `save_ok` — whether writing the temporary
file succeeded; `decodes` — whether PIL `Image.open(...).verify()` accepted
the bytes; `analysis` — the outcome of `analyze_meal_image`; `timestamp` —
the `datetime.now()` strings (one value stands for both format calls);
`uid` — the `get_user_id()` value.  The temporary file lives outside the
content directory and is removed on the validation-failure path, so it does
not appear in the store.  The final JSON dump is modelled as succeeding; its
failure path raises a 500 after removing the stored file. -/
def upload_image (st : MealStore) (filename description : String)
    (save_ok decodes : Bool) (analysis : Except String String)
    (timestamp uid : String) : UploadOutcome × MealStore :=
  if !has_allowed_extension filename then
    (.httpError 400 "Only PNG, JPG, and JPEG images are accepted.", st)
  else if !save_ok then
    (.httpError 500 "Failed to save upload", st)
  else if !decodes then
    (.httpError 400 "Invalid image file", st)
  else
    let nid := new_id st.meals
    let new_filename :=
      "meals_" ++ toString nid ++ "_" ++ timestamp ++ splitext_ext filename
    let final_image_path := "uploads/meals/" ++ new_filename
    let analysis_response : AnalysisResponse :=
      match analysis with
      | .ok a => .ok a
      | .error e => .error e
    let record : MealRecord :=
      { id := some nid,
        name := some filename,
        description :=
          some (if description = "" then "No description provided"
                else description),
        image_path := some final_image_path,
        upload_date := some timestamp,
        user_id := some uid,
        analysis_response := some analysis_response }
    (.success nid
      ("Meal image uploaded and analyzed successfully. ID: " ++ toString nid)
      final_image_path,
     { meals := st.meals ++ [record],
       files := st.files ++ [final_image_path] })

/-- C8: an upload whose filename has a non-image extension, or whose bytes
do not decode as an image, is rejected with an HTTP error before any
persistence: no file is added to the content directory and the record store
is unchanged (the whole store is returned as it was). -/
theorem upload_rejected_before_persistence (st : MealStore)
    (filename description : String) (save_ok decodes : Bool)
    (analysis : Except String String) (timestamp uid : String)
    (hbad : has_allowed_extension filename = false ∨ decodes = false) :
    (∃ status detail,
      (upload_image st filename description save_ok decodes analysis
        timestamp uid).1 = UploadOutcome.httpError status detail) ∧
    (upload_image st filename description save_ok decodes analysis
      timestamp uid).2 = st := by
  unfold upload_image
  rcases hbad with h | h
  · rw [h]
    exact ⟨⟨400, _, rfl⟩, rfl⟩
  · cases hext : has_allowed_extension filename with
    | false => exact ⟨⟨400, _, rfl⟩, rfl⟩
    | true =>
      cases save_ok with
      | false => exact ⟨⟨500, _, rfl⟩, rfl⟩
      | true =>
        rw [h]
        exact ⟨⟨400, _, rfl⟩, rfl⟩

/-- Closed witness for C8: uploading `photo.txt` is rejected and the store
(no files, no records) is untouched. -/
theorem upload_rejected_before_persistence_witness :
    (∃ status detail,
      (upload_image ⟨[], []⟩ "photo.txt" "" true true (Except.ok "fine")
        "20250101_000000" "user_x").1 =
        UploadOutcome.httpError status detail) ∧
    (upload_image ⟨[], []⟩ "photo.txt" "" true true (Except.ok "fine")
      "20250101_000000" "user_x").2 = ⟨[], []⟩ := by
  exact upload_rejected_before_persistence ⟨[], []⟩ "photo.txt" "" true true
    (Except.ok "fine") "20250101_000000" "user_x" (Or.inl (by decide))

/-- C10: when a valid image uploads but the vision-analysis step fails, the
upload still succeeds: a record is appended whose analysis field carries the
error description as data, and the response is a success naming the
assigned id and the stored path. -/
theorem upload_survives_vision_failure (st : MealStore)
    (filename description : String) (e : String) (timestamp uid : String)
    (hext : has_allowed_extension filename = true) :
    ∃ path detail record,
      (upload_image st filename description true true (Except.error e)
        timestamp uid).1 =
        UploadOutcome.success (new_id st.meals) detail path ∧
      (upload_image st filename description true true (Except.error e)
        timestamp uid).2.meals = st.meals ++ [record] ∧
      record.analysis_response = some (AnalysisResponse.error e) ∧
      record.id = some (new_id st.meals) ∧
      record.image_path = some path := by
  unfold upload_image
  rw [hext]
  exact ⟨_, _, _, rfl, rfl, rfl, rfl, rfl⟩

/-- Closed witness for C10: a failing vision call on `photo.jpg` still
persists a record carrying the error and reports success. -/
theorem upload_survives_vision_failure_witness :
    ∃ path detail record,
      (upload_image ⟨[], []⟩ "photo.jpg" "" true true
        (Except.error "vision down") "20250101_000000" "user_x").1 =
        UploadOutcome.success (new_id ([] : List MealRecord)) detail path ∧
      (upload_image ⟨[], []⟩ "photo.jpg" "" true true
        (Except.error "vision down") "20250101_000000" "user_x").2.meals =
        ([] : List MealRecord) ++ [record] ∧
      record.analysis_response = some (AnalysisResponse.error "vision down") ∧
      record.id = some (new_id ([] : List MealRecord)) ∧
      record.image_path = some path := by
  exact upload_survives_vision_failure ⟨[], []⟩ "photo.jpg" "" "vision down"
    "20250101_000000" "user_x" (by decide)

end NutritionAgent
